import Mathlib

/-!
# Verification of the out-of-process plugin execution engine

Shallow embedding of the external-process runner ("execd") subsystem of the
circonus-unified-agent repository, and proofs about it.

Embedded directly from the sources:
* `Execd.Gather` (the trigger channel; `plugins/inputs/execd/execd_posix.go`,
  given as `src/unnamed/part_002`),
* `runCountMultiplierProgram` (the external count-doubling process of
  `plugins/processors/execd/execd_test.go`),
* `testProcessor.Apply` (the tag-enriching transform of the shim test,
  `src/unnamed/part_000`).

The host-side Execd processor supervisor (`Start`/`Add`/`Stop`) and the guest
shim's run loop (`RunProcessor`) are exercised by tests present in the sources
but their implementations are not among the available source files; those two
components are modelled from the specification, as marked on each definition.

Machine integers are modelled as `Int`/`Nat`; the line codec is external to the
engine (the spec treats it as a collaborator), so streams carry decoded records
plus explicit decode events. Floating-point field values are outside the model;
every claim below involves only integer fields.
-/

/-- A typed field value of a sample. The sources use `int64` and `float64`
numeric fields plus strings and booleans; the claims only involve integer
fields, so floating point is left out of the model. -/
inductive FieldValue where
  | ival : Int → FieldValue
  | sval : String → FieldValue
  | bval : Bool → FieldValue
deriving DecidableEq

/-- A sample (metric): name, tags, typed fields, nanosecond timestamp.
Tags and fields are association lists in insertion order; the engine never
depends on their order. -/
structure Metric where
  name : String
  tags : List (String × String)
  fields : List (String × FieldValue)
  time : Nat
deriving DecidableEq

/-- Upsert into an association list: replace the value at an existing key in
place, else append — the behaviour of the metric package's `AddTag`/`AddField`. -/
def upsert {α : Type} (k : String) (v : α) : List (String × α) → List (String × α)
  | [] => [(k, v)]
  | (k2, v2) :: rest => if k = k2 then (k, v) :: rest else (k2, v2) :: upsert k v rest

/-- Association-list lookup used by `GetTag`/`GetField`. -/
def alookup {α : Type} (k : String) : List (String × α) → Option α
  | [] => none
  | (k2, v2) :: rest => if k = k2 then some v2 else alookup k rest

def Metric.addTag (m : Metric) (k v : String) : Metric :=
  { m with tags := upsert k v m.tags }

def Metric.addField (m : Metric) (k : String) (v : FieldValue) : Metric :=
  { m with fields := upsert k v m.fields }

def Metric.getTag (m : Metric) (k : String) : Option String :=
  alookup k m.tags

def Metric.getField (m : Metric) (k : String) : Option FieldValue :=
  alookup k m.fields

/-! ## Trigger channel: `Execd.Gather` (embedded from `src/unnamed/part_002`) -/

/-- The parts of the host-side process handle that `Execd.Gather` inspects:
whether `process.Cmd` and `process.Cmd.Process` are non-nil, whether
`process.Stdin` is an `*os.File` (so a write deadline can be set), and how the
environment answers the signal delivery and the stdin write. -/
structure ProcessHandle where
  cmdPresent : Bool
  osProcessPresent : Bool
  stdinIsFile : Bool
  stdinWriteErr : Option String
  signalDeliveryErr : Option String
deriving DecidableEq

/-- The `Execd` input plugin state seen by `Gather`: the configured `Signal`
selector and the (possibly nil) process handle. -/
structure Execd where
  Signal : String
  process : Option ProcessHandle
deriving DecidableEq

/-- Observable side effects of one `Gather` call: OS signals sent, the write
deadline set on stdin (in nanoseconds), and the strings written to stdin. -/
structure GatherEffects where
  signalsSent : List String
  deadlineSetNanos : Option Nat
  stdinWrites : List String
deriving DecidableEq

/-- The no-effect record. -/
def GatherEffects.empty : GatherEffects :=
  { signalsSent := [], deadlineSetNanos := none, stdinWrites := [] }

def oneSecondNanos : Nat := 1000000000

/-- Shallow embedding of `Execd.Gather` (posix build). Returns the Go error
(`none` = nil) paired with the observable effects. Mirrors the source: nil
`process`/`Cmd`/`Process` short-circuit to nil; `SIGHUP`/`SIGUSR1`/`SIGUSR2` send
the signal and discard its error (`_ = osProcess.Signal(...)`); `STDIN` sets a
one-second write deadline when stdin is an `*os.File`, writes `"\n"`, and
returns a wrapped error exactly when the write fails; `"none"` does nothing;
any other selector returns `invalid signal`. -/
def Execd.Gather (e : Execd) : Option String × GatherEffects :=
  match e.process with
  | none => (none, GatherEffects.empty)
  | some p =>
    if p.cmdPresent = false then (none, GatherEffects.empty)
    else if p.osProcessPresent = false then (none, GatherEffects.empty)
    else
      match e.Signal with
      | "SIGHUP" =>
        (none, { signalsSent := ["SIGHUP"], deadlineSetNanos := none, stdinWrites := [] })
      | "SIGUSR1" =>
        (none, { signalsSent := ["SIGUSR1"], deadlineSetNanos := none, stdinWrites := [] })
      | "SIGUSR2" =>
        (none, { signalsSent := ["SIGUSR2"], deadlineSetNanos := none, stdinWrites := [] })
      | "STDIN" =>
        let eff : GatherEffects :=
          { signalsSent := [],
            deadlineSetNanos := if p.stdinIsFile then some oneSecondNanos else none,
            stdinWrites := ["\n"] }
        match p.stdinWriteErr with
        | some msg => (some ("Error writing to stdin: " ++ msg), eff)
        | none => (none, eff)
      | "none" => (none, GatherEffects.empty)
      | other => (some ("invalid signal: " ++ other), GatherEffects.empty)

/-! ## Guest shim and the external processes -/

/-- One decode event on a record stream: a well-formed record, or a decode
error that is not a clean end-of-stream. A clean end-of-stream is the end of
the list. -/
inductive InItem where
  | record : Metric → InItem
  | malformed : InItem
deriving DecidableEq

/-- Outcome of a guest process run: the run call returned nil (clean), or the
process exited with a non-zero status. -/
inductive RunResult where
  | ok : RunResult
  | exitNonzero : RunResult
deriving DecidableEq

/-- `testProcessor.Apply` from the shim test (`src/unnamed/part_000`): adds the
tag `hi=mom` to every input metric and returns the inputs. -/
def testProcessorApply (ms : List Metric) : List Metric :=
  ms.map (fun m => m.addTag "hi" "mom")

/-- Modelled from the spec: the guest Shim's run loop (`RunProcessor`) is not
among the available source files (only its test is), so it is modelled from
§4.2 of the specification: a single sequential loop that decodes one record
from the process's input stream, calls `Apply`, writes each encoded result to
the output stream, then decodes the next record; a clean end-of-stream ends the
loop with a nil return, and any other decode error is fatal (exit non-zero).
Returns the decoded output stream paired with the run outcome. -/
def runShim (apply : Metric → List Metric) : List InItem → List Metric × RunResult
  | [] => ([], RunResult.ok)
  | InItem.malformed :: _ => ([], RunResult.exitNonzero)
  | InItem.record m :: rest =>
    let r := runShim apply rest
    (apply m ++ r.1, r.2)

/-- The per-record step of `runCountMultiplierProgram`
(`plugins/processors/execd/execd_test.go`): fetch the `count` field (exit if
absent), double it for an integer value (exit for any other type; the `float64`
branch is outside this model and unused by the claims), and write the field
back. `none` stands for the exit-1 paths. -/
def multiplyCount (m : Metric) : Option Metric :=
  match m.getField "count" with
  | none => none
  | some (FieldValue.ival n) => some (m.addField "count" (FieldValue.ival (n * 2)))
  | some _ => none

/-- Embedding of `runCountMultiplierProgram`'s loop: decode with the influx
stream parser (EOF → clean return, parse or other error → exit 1), apply
`multiplyCount` (its failure paths exit 1), serialize and print each result. -/
def runCountMultiplier : List InItem → List Metric × RunResult
  | [] => ([], RunResult.ok)
  | InItem.malformed :: _ => ([], RunResult.exitNonzero)
  | InItem.record m :: rest =>
    match multiplyCount m with
    | none => ([], RunResult.exitNonzero)
    | some m2 =>
      let r := runCountMultiplier rest
      (m2 :: r.1, r.2)

/-! ## Host-side supervisor (modelled from the spec)

The Execd processor's `Start`/`Add`/`Stop` implementation is not among the
available source files (only its test is); the supervisor below is modelled
from §3-§4.1 of the specification. -/

/-- Modelled from the spec: host-side supervisor state for one crash-free
lifecycle. `alive` says whether a process generation is alive; `procInput` is
the ordered input stream written to the generation and not yet consumed;
`procOutput` holds decoded results not yet delivered; `sink` is the
accumulator's view; `accepted` is the (ghost) list of samples accepted by
`Add`, in submission order. -/
structure Supervisor where
  alive : Bool
  procInput : List Metric
  procOutput : List Metric
  sink : List Metric
  accepted : List Metric
deriving DecidableEq

/-- Modelled from the spec: `Start` spawns generation 1 with empty streams. -/
def ExecdProcessor.start : Supervisor :=
  { alive := true, procInput := [], procOutput := [], sink := [], accepted := [] }

/-- Error message for a sample submitted while no generation is alive. -/
def noGenerationErr : String := "process is not running: cannot write sample"

/-- Modelled from the spec: `Add` encodes the sample and appends it to the live
generation's input stream in submission order; while no generation is alive the
sample is rejected with an error, not queued. -/
def ExecdProcessor.add (s : Supervisor) (m : Metric) : Except String Supervisor :=
  if s.alive then
    Except.ok { s with procInput := s.procInput ++ [m], accepted := s.accepted ++ [m] }
  else
    Except.error noGenerationErr

/-- Modelled from the spec: the external process consumes the next input
record, applies its transform `proc`, and appends the results to its output
stream (the shim's strictly sequential loop, §4.2). -/
def ExecdProcessor.procStep (proc : Metric → List Metric) (s : Supervisor) : Supervisor :=
  match s.procInput with
  | [] => s
  | m :: rest => { s with procInput := rest, procOutput := s.procOutput ++ proc m }

/-- Modelled from the spec: the host Reader task decodes the next output
record and delivers it to the sink, in arrival order. -/
def ExecdProcessor.readerStep (s : Supervisor) : Supervisor :=
  match s.procOutput with
  | [] => s
  | m :: rest => { s with procOutput := rest, sink := s.sink ++ [m] }

/-- Modelled from the spec: `Stop` closes the input stream (the process
consumes and answers everything still pending, then exits cleanly on
end-of-stream), waits for the exit, and drains the Reader, delivering every
remaining decoded result to the sink before returning. -/
def ExecdProcessor.stop (proc : Metric → List Metric) (s : Supervisor) : Supervisor :=
  { alive := false,
    procInput := [],
    procOutput := [],
    sink := s.sink ++ s.procOutput ++ (s.procInput.map proc).flatten,
    accepted := s.accepted }

/-- Interleaving alphabet for a crash-free lifecycle: a submission, one
external-process step, or one Reader delivery step. -/
inductive Event where
  | add : Metric → Event
  | procStep : Event
  | readerStep : Event

/-- One scheduler step; a rejected `add` leaves the state unchanged. -/
def stepEvent (proc : Metric → List Metric) (s : Supervisor) : Event → Supervisor
  | Event.add m =>
    match ExecdProcessor.add s m with
    | Except.ok s2 => s2
    | Except.error _ => s
  | Event.procStep => ExecdProcessor.procStep proc s
  | Event.readerStep => ExecdProcessor.readerStep s

/-- Run a sequence of scheduler steps. -/
def runEvents (proc : Metric → List Metric) (s : Supervisor) (evs : List Event) : Supervisor :=
  evs.foldl (stepEvent proc) s

/-! ## Concrete scenarios from the tests -/

/-- One submitted sample of `TestExternalProcessorWorks`: name `test`, tag
`city=Toronto`, fields `population=6000000` and `count=1`, timestamp `t`. -/
def scenarioSample (t : Nat) : Metric :=
  { name := "test", tags := [("city", "Toronto")],
    fields := [("population", FieldValue.ival 6000000), ("count", FieldValue.ival 1)],
    time := t }

/-- The expected doubled result: same sample with `count=2`. -/
def scenarioResult (t : Nat) : Metric :=
  { name := "test", tags := [("city", "Toronto")],
    fields := [("population", FieldValue.ival 6000000), ("count", FieldValue.ival 2)],
    time := t }

/-- The count-multiplier process as a per-record transform (its behaviour on
well-formed records; its failure paths produce no record and exit). -/
def countMultiplierProc (m : Metric) : List Metric :=
  (multiplyCount m).toList

/-- The event trace of `TestExternalProcessorWorks`: ten submissions with
timestamps `T, T+1, …, T+9`, then the process answers the first record and the
Reader delivers it (the test's `acc.Wait(1)` before `Stop`). -/
def scenarioEvents (T : Nat) : List Event :=
  ((List.range 10).map (fun i => Event.add (scenarioSample (T + i)))) ++
    [Event.procStep, Event.readerStep]

/-- The supervisor state after running the test trace and then `Stop`. -/
def scenarioRun (T : Nat) : Supervisor :=
  ExecdProcessor.stop countMultiplierProc
    (runEvents countMultiplierProc ExecdProcessor.start (scenarioEvents T))

/-- The metric written in `TestProcessorShim`: name `thing`, tag `a=b`,
field `v=1`. -/
def thingMetric (t : Nat) : Metric :=
  { name := "thing", tags := [("a", "b")], fields := [("v", FieldValue.ival 1)], time := t }

/-- The same metric after `testProcessor.Apply` added `hi=mom`. -/
def thingEnriched (t : Nat) : Metric :=
  { name := "thing", tags := [("a", "b"), ("hi", "mom")],
    fields := [("v", FieldValue.ival 1)], time := t }

/-! ## Helper lemmas -/

/-- The sink/flight-queue invariant of the supervisor: what was delivered, plus
what the process has produced but the Reader has not yet delivered, plus what
the process will produce from the not-yet-consumed input, is exactly the
transform of every accepted submission, in submission order. -/
def sinkInv (proc : Metric → List Metric) (s : Supervisor) : Prop :=
  s.sink ++ s.procOutput ++ (s.procInput.map proc).flatten = (s.accepted.map proc).flatten

theorem sinkInv_step (proc : Metric → List Metric) (s : Supervisor) (e : Event)
    (h : sinkInv proc s) : sinkInv proc (stepEvent proc s e) := by
  cases e with
  | add m =>
    by_cases ha : s.alive = true
    · simp only [sinkInv, stepEvent, ExecdProcessor.add, ha, if_true] at h ⊢
      simp only [List.map_append, List.flatten_append, List.map_cons, List.map_nil,
        List.flatten_cons, List.flatten_nil, List.append_nil, ← List.append_assoc] at h ⊢
      rw [h]
    · have hb : s.alive = false := by
        cases hx : s.alive
        · rfl
        · exact absurd hx ha
      simp only [sinkInv, stepEvent, ExecdProcessor.add, hb] at h ⊢
      simpa using h
  | procStep =>
    cases hin : s.procInput with
    | nil => simpa [sinkInv, stepEvent, ExecdProcessor.procStep, hin] using h
    | cons m rest =>
      simp only [sinkInv, stepEvent, ExecdProcessor.procStep, hin] at h ⊢
      simp only [List.map_cons, List.flatten_cons, ← List.append_assoc] at h ⊢
      exact h
  | readerStep =>
    cases hout : s.procOutput with
    | nil => simpa [sinkInv, stepEvent, ExecdProcessor.readerStep, hout] using h
    | cons m rest =>
      simp only [sinkInv, stepEvent, ExecdProcessor.readerStep, hout] at h ⊢
      simpa [List.append_assoc] using h

theorem sinkInv_runEvents (proc : Metric → List Metric) (s : Supervisor) (evs : List Event)
    (h : sinkInv proc s) : sinkInv proc (runEvents proc s evs) := by
  induction evs generalizing s with
  | nil => exact h
  | cons e evs ih => exact ih _ (sinkInv_step proc s e h)

theorem stop_sink_eq (proc : Metric → List Metric) (s : Supervisor) (h : sinkInv proc s) :
    (ExecdProcessor.stop proc s).sink = (s.accepted.map proc).flatten := by
  simpa [sinkInv, ExecdProcessor.stop, List.append_assoc] using h

theorem stepEvent_stopped (proc : Metric → List Metric) (s : Supervisor)
    (h1 : s.alive = false) (h2 : s.procInput = []) (h3 : s.procOutput = []) (e : Event) :
    stepEvent proc s e = s := by
  cases e with
  | add m => simp [stepEvent, ExecdProcessor.add, h1]
  | procStep => simp [stepEvent, ExecdProcessor.procStep, h2]
  | readerStep => simp [stepEvent, ExecdProcessor.readerStep, h3]

theorem runEvents_stopped (proc : Metric → List Metric) (s : Supervisor)
    (h1 : s.alive = false) (h2 : s.procInput = []) (h3 : s.procOutput = [])
    (evs : List Event) : runEvents proc s evs = s := by
  induction evs with
  | nil => rfl
  | cons e evs ih =>
    show runEvents proc (stepEvent proc s e) evs = s
    rw [stepEvent_stopped proc s h1 h2 h3 e, ih]

theorem runShim_records_ok (apply : Metric → List Metric) (ms : List Metric) :
    (runShim apply (ms.map InItem.record)).2 = RunResult.ok := by
  induction ms with
  | nil => rfl
  | cons m ms ih => simp [runShim, ih]

theorem runShim_malformed_stops (apply : Metric → List Metric) (pre : List Metric)
    (rest : List InItem) :
    runShim apply (pre.map InItem.record ++ InItem.malformed :: rest)
      = ((pre.map apply).flatten, RunResult.exitNonzero) := by
  induction pre with
  | nil => rfl
  | cons m pre ih => simp [runShim, ih]

/-! ## Claim theorems -/

set_option maxHeartbeats 4000000 in
/-- C1: end-to-end scenario. Ten samples named `test` with tag `city=Toronto`
and field `count=1`, timestamped `T, T+1, …, T+9`, are submitted to the
count-doubling external process; after `Stop()` returns, the sink holds exactly
the ten doubled results in order — the first with `count=2` and timestamp `T`,
the rest with strictly increasing timestamps `T+1 … T+9`, each with `count=2` —
and all ten are visible at the sink. -/
theorem execd_end_to_end_scenario (T : Nat) :
    (scenarioRun T).sink = (List.range 10).map (fun i => scenarioResult (T + i)) ∧
    (scenarioRun T).sink.map Metric.time = (List.range 10).map (fun i => T + i) ∧
    (scenarioRun T).sink.length = 10 ∧
    (∀ i : Nat, (scenarioResult (T + i)).getField "count" = some (FieldValue.ival 2)) := by
  refine ⟨by rfl, by rfl, by rfl, fun i => rfl⟩

/-- C2: for every order-preserving 1:1 transform `t` and every input stream of
well-formed records, the Shim writes exactly the element-wise image of the
input sequence to its output stream, in order, dropping nothing, and the run
ends cleanly. -/
theorem shim_one_to_one_transform (t : Metric → Metric) (ms : List Metric) :
    runShim (fun m => [t m]) (ms.map InItem.record) = (ms.map t, RunResult.ok) := by
  induction ms with
  | nil => rfl
  | cons m ms ih => simp [runShim, ih]

/-- C3: for every transform and every crash-free event trace, once `Stop()`
returns the sink holds exactly the results the external process produced for
all accepted submissions (nothing pending), and no further scheduler step —
submission, process step, or Reader step — changes the state (in particular
nothing more is delivered to the sink) after `Stop()` returns. -/
theorem stop_flushes_and_freezes (proc : Metric → List Metric) (evs evs2 : List Event) :
    (ExecdProcessor.stop proc (runEvents proc ExecdProcessor.start evs)).sink
      = ((runEvents proc ExecdProcessor.start evs).accepted.map proc).flatten ∧
    runEvents proc (ExecdProcessor.stop proc (runEvents proc ExecdProcessor.start evs)) evs2
      = ExecdProcessor.stop proc (runEvents proc ExecdProcessor.start evs) := by
  constructor
  · exact stop_sink_eq proc _
      (sinkInv_runEvents proc ExecdProcessor.start evs (by simp [sinkInv, ExecdProcessor.start]))
  · exact runEvents_stopped proc _ rfl rfl rfl evs2

/-- C4: the Shim's run loop returns cleanly when the input stream ends with a
clean end-of-stream, and a decode error that is not a clean end-of-stream makes
the process exit non-zero, emitting nothing decoded after the error; the
in-source count-multiplier program behaves the same way. -/
theorem shim_eof_and_fatal_decode_error (apply : Metric → List Metric)
    (ms pre : List Metric) (rest rest2 : List InItem) :
    (runShim apply (ms.map InItem.record)).2 = RunResult.ok ∧
    runShim apply (pre.map InItem.record ++ InItem.malformed :: rest)
      = ((pre.map apply).flatten, RunResult.exitNonzero) ∧
    runCountMultiplier [] = ([], RunResult.ok) ∧
    runCountMultiplier (InItem.malformed :: rest2) = ([], RunResult.exitNonzero) :=
  ⟨runShim_records_ok apply ms, runShim_malformed_stops apply pre rest, rfl, rfl⟩

/-- C5: one encoded sample written to a Shim wrapping `testProcessor` (which
adds tag `hi=mom`) yields exactly one output record, that record carries tag
`hi` with value `mom`, and the run call returns cleanly on the closed input
stream. -/
theorem shim_tag_enrichment (t : Nat) :
    runShim (fun m => testProcessorApply [m]) [InItem.record (thingMetric t)]
      = ([thingEnriched t], RunResult.ok) ∧
    (thingEnriched t).getTag "hi" = some "mom" := by
  exact ⟨rfl, rfl⟩

/-- C9: a sample submitted while no process generation is alive is rejected
with an error, and the supervisor state is unchanged — the sample is queued
nowhere, so no later step (including after a new generation starts) can deliver
or retry it. -/
theorem add_rejected_when_not_alive (proc : Metric → List Metric) (s : Supervisor)
    (m : Metric) (h : s.alive = false) :
    ExecdProcessor.add s m = Except.error noGenerationErr ∧
    stepEvent proc s (Event.add m) = s := by
  have herr : ExecdProcessor.add s m = Except.error noGenerationErr := by
    simp [ExecdProcessor.add, h]
  exact ⟨herr, by simp [stepEvent, herr]⟩

/-- A supervisor state with no live generation (the state after `Stop`). -/
def deadSupervisor : Supervisor :=
  { alive := false, procInput := [], procOutput := [], sink := [], accepted := [] }

/-- Witness for C9 at a concrete stopped supervisor and a concrete sample. -/
theorem add_rejected_when_not_alive_witness :
    deadSupervisor.alive = false ∧
    (ExecdProcessor.add deadSupervisor (scenarioSample 0) = Except.error noGenerationErr ∧
     stepEvent (fun m => [m]) deadSupervisor (Event.add (scenarioSample 0)) = deadSupervisor) :=
  ⟨rfl, add_rejected_when_not_alive (fun m => [m]) deadSupervisor (scenarioSample 0) rfl⟩

/-- A live process handle whose signal delivery and stdin writes succeed. -/
def healthyHandle : ProcessHandle :=
  { cmdPresent := true, osProcessPresent := true, stdinIsFile := true,
    stdinWriteErr := none, signalDeliveryErr := none }

/-- An `Execd` configured with an unsupported signal selector and a live
process generation. -/
def badSignalExecd : Execd :=
  { Signal := "SIGKILL", process := some healthyHandle }

/-- C6 counterexample: with an unsupported trigger-signal selector and a live
generation, two successive trigger attempts (`Gather` calls) each return the
`invalid signal` configuration error — the error is produced by every trigger
attempt, contradicting "reported exactly once at start, rather than on each
trigger attempt". -/
theorem invalid_signal_reported_per_attempt_cex :
    (Execd.Gather badSignalExecd).1 = some "invalid signal: SIGKILL" ∧
    (List.replicate 2 badSignalExecd).map (fun e => (Execd.Gather e).1)
      = [some "invalid signal: SIGKILL", some "invalid signal: SIGKILL"] :=
  ⟨rfl, rfl⟩

/-- C6 amended: a trigger-signal selector outside
`{SIGHUP, SIGUSR1, SIGUSR2, STDIN, none}` is reported as an `invalid signal`
error on every trigger attempt made while a process generation is alive; it is
not validated once at start. -/
theorem invalid_signal_each_attempt (e : Execd) (p : ProcessHandle)
    (hp : e.process = some p) (hc : p.cmdPresent = true) (ho : p.osProcessPresent = true)
    (hs : e.Signal ∉ (["SIGHUP", "SIGUSR1", "SIGUSR2", "STDIN", "none"] : List String)) :
    (Execd.Gather e).1 = some ("invalid signal: " ++ e.Signal) := by
  simp only [List.mem_cons, List.not_mem_nil, or_false, not_or] at hs
  obtain ⟨h1, h2, h3, h4, h5⟩ := hs
  simp only [Execd.Gather, hp]
  simp only [hc, ho]
  simp only [show ((true = false) = False) from by simp, if_false]

/-- Witness for C6 amended at the concrete `badSignalExecd`. -/
theorem invalid_signal_each_attempt_witness :
    badSignalExecd.Signal ∉ (["SIGHUP", "SIGUSR1", "SIGUSR2", "STDIN", "none"] : List String) ∧
    (Execd.Gather badSignalExecd).1 = some ("invalid signal: " ++ badSignalExecd.Signal) :=
  ⟨by decide,
   invalid_signal_each_attempt badSignalExecd healthyHandle rfl rfl rfl (by decide)⟩

/-- C7: with selector `STDIN` and a live generation whose stdin is an OS file,
`Gather` sets a one-second write deadline on the process's input stream, writes
exactly the single newline string to it, and returns an error exactly when that
write fails. -/
theorem stdin_trigger_deadline_newline (e : Execd) (p : ProcessHandle)
    (hp : e.process = some p) (hc : p.cmdPresent = true) (ho : p.osProcessPresent = true)
    (hs : e.Signal = "STDIN") (hf : p.stdinIsFile = true) :
    (Execd.Gather e).2.deadlineSetNanos = some oneSecondNanos ∧
    (Execd.Gather e).2.stdinWrites = ["\n"] ∧
    ((Execd.Gather e).1 = none ↔ p.stdinWriteErr = none) := by
  cases hw : p.stdinWriteErr <;>
    simp [Execd.Gather, hp, hc, ho, hs, hf, hw]

/-- An `Execd` in `STDIN` trigger mode over a healthy live generation. -/
def stdinExecd : Execd :=
  { Signal := "STDIN", process := some healthyHandle }

/-- Witness for C7 at the concrete `stdinExecd`. -/
theorem stdin_trigger_deadline_newline_witness :
    stdinExecd.Signal = "STDIN" ∧ healthyHandle.stdinIsFile = true ∧
    ((Execd.Gather stdinExecd).2.deadlineSetNanos = some oneSecondNanos ∧
     (Execd.Gather stdinExecd).2.stdinWrites = ["\n"] ∧
     ((Execd.Gather stdinExecd).1 = none ↔ healthyHandle.stdinWriteErr = none)) :=
  ⟨rfl, rfl, stdin_trigger_deadline_newline stdinExecd healthyHandle rfl rfl rfl rfl rfl⟩

/-- A live handle whose OS signal delivery fails. -/
def sighupFailHandle : ProcessHandle :=
  { cmdPresent := true, osProcessPresent := true, stdinIsFile := true,
    stdinWriteErr := none, signalDeliveryErr := some "operation not permitted" }

/-- SIGHUP trigger over a generation whose signal delivery fails. -/
def sighupFailExecd : Execd :=
  { Signal := "SIGHUP", process := some sighupFailHandle }

/-- C8 counterexample: with selector `SIGHUP`, the delivery of the signal fails
(`signalDeliveryErr` is set) yet `Gather` returns nil and produces no report of
the failure — the source discards the error of `osProcess.Signal` — so the
failure is not "reported (logged or surfaced)". -/
theorem trigger_failure_silent_cex :
    sighupFailHandle.signalDeliveryErr = some "operation not permitted" ∧
    Execd.Gather sighupFailExecd
      = (none, { signalsSent := ["SIGHUP"], deadlineSetNanos := none, stdinWrites := [] }) :=
  ⟨rfl, rfl⟩

/-- C8 amended: a trigger-delivery failure is never fatal — `Gather` always
returns — but only the `STDIN` variant reports it: for `SIGHUP`/`SIGUSR1`/
`SIGUSR2` the delivery error is silently discarded and `Gather` returns nil
regardless, while for `STDIN` the write failure is surfaced as a non-fatal
error return. -/
theorem trigger_failure_policy (e : Execd) (p : ProcessHandle)
    (hp : e.process = some p) (hc : p.cmdPresent = true) (ho : p.osProcessPresent = true) :
    ((e.Signal = "SIGHUP" ∨ e.Signal = "SIGUSR1" ∨ e.Signal = "SIGUSR2") →
      (Execd.Gather e).1 = none) ∧
    (e.Signal = "STDIN" →
      (Execd.Gather e).1 = Option.map (fun msg => "Error writing to stdin: " ++ msg)
        p.stdinWriteErr) := by
  constructor
  · rintro (hs | hs | hs) <;> simp [Execd.Gather, hp, hc, ho, hs]
  · intro hs
    cases hw : p.stdinWriteErr <;> simp [Execd.Gather, hp, hc, ho, hs, hw]

/-- Witness for C8 amended at the concrete `sighupFailExecd`. -/
theorem trigger_failure_policy_witness :
    (Execd.Gather sighupFailExecd).1 = none :=
  (trigger_failure_policy sighupFailExecd sighupFailHandle rfl rfl rfl).1 (Or.inl rfl)

/-- C10: when no process handle exists — `process` nil, or its `Cmd` nil, or
the OS process nil — `Gather` returns nil with no signal sent, no deadline set
and nothing written, and the configured `Signal` value is never validated, even
when it is invalid. -/
theorem gather_nil_process_noop (e : Execd)
    (h : e.process = none ∨
      ∃ p, e.process = some p ∧ (p.cmdPresent = false ∨ p.osProcessPresent = false)) :
    Execd.Gather e = (none, GatherEffects.empty) := by
  rcases h with h | ⟨p, hp, hc⟩
  · simp [Execd.Gather, h]
  · rcases hc with hc | hc
    · simp [Execd.Gather, hp, hc]
    · cases hcmd : p.cmdPresent <;> simp [Execd.Gather, hp, hc, hcmd]

/-- An `Execd` with an invalid selector and no process handle at all. -/
def bogusNoProcExecd : Execd :=
  { Signal := "BOGUS", process := none }

/-- Witness for C10: even with the invalid selector `BOGUS`, a `Gather` call
with a nil process returns nil and does nothing. -/
theorem gather_nil_process_noop_witness :
    bogusNoProcExecd.process = none ∧
    Execd.Gather bogusNoProcExecd = (none, GatherEffects.empty) :=
  ⟨rfl, gather_nil_process_noop bogusNoProcExecd (Or.inl rfl)⟩
